import Mathlib

/-!
Shallow embedding of the TeamService module: team CRUD, bulk CSV team
import, filtered player queries, and cache-aside team statistics, over an
explicit relational store and a string-keyed key/value cache with optional
TTLs.  The external relational store is modelled as lists of rows; TypeORM
query builders are modelled as a syntactic condition list plus skip/take,
executed against the player table by filter/drop/take (SQL applies WHERE
before OFFSET/LIMIT regardless of builder-call order).  The external cache
manager is modelled as an association list of key/value/TTL entries; TTL
expiry mechanics themselves are external and out of scope.
-/

namespace SpartaTeams

/-- A team row of the relational store. -/
structure Team where
  id : Nat
  name : String
  description : String
deriving DecidableEq, Repr

/-- A player row; `teamId` is the `team_id` foreign key. -/
structure Player where
  id : Nat
  name : String
  nickname : String
  teamId : Nat
deriving DecidableEq, Repr

/-- A support-message row, opaque to this core except for counting. -/
structure SupportMessage where
  id : Nat
  teamId : Nat
deriving DecidableEq, Repr

/-- The relational store: the three tables plus the next auto-assigned
team id. -/
structure Store where
  teams : List Team
  players : List Player
  supportMessages : List SupportMessage
  nextTeamId : Nat
deriving DecidableEq, Repr

/-- One row of the team-statistics aggregate. -/
structure TeamStat where
  id : Nat
  name : String
  playerCount : Nat
  supportMessageCount : Nat
deriving DecidableEq, Repr

/-- A value stored in the key/value cache.  The cache is untyped in the
source; only these two shapes are ever written by this module. -/
inductive CacheValue where
  | players : List Player → CacheValue
  | stats : List TeamStat → CacheValue
deriving DecidableEq, Repr

/-- One cache entry: key, value and optional TTL in milliseconds.  The TTL
is recorded as written; its expiry mechanics belong to the external cache
store. -/
structure CacheEntry where
  key : String
  value : CacheValue
  ttl : Option Nat
deriving DecidableEq, Repr

/-- The key/value cache, newest entry first. -/
abbrev Cache := List CacheEntry

/-- Cache lookup: first entry under the key, if any.  A present value is
always truthy in the source (arrays), so a miss is exactly `none`. -/
def cacheGet (c : Cache) (k : String) : Option CacheValue :=
  (c.find? fun e => e.key == k).map CacheEntry.value

/-- Cache write: the new entry shadows any older entry under the key. -/
def cacheSet (c : Cache) (k : String) (v : CacheValue) (t : Option Nat) : Cache :=
  ⟨k, v, t⟩ :: c

/-- The two error kinds raised by the service. -/
inductive ServiceError where
  | badRequest : String → ServiceError
  | notFound : String → ServiceError
deriving DecidableEq, Repr

/-- JavaScript `s.endsWith(suf)`: character-wise, case-sensitive suffix
test. -/
def jsEndsWith (s suf : String) : Bool :=
  List.isSuffixOf suf.data s.data

/-- JavaScript truthiness of an optional string: `undefined`/absent and
`""` are falsy, every other string is truthy. -/
def truthy : Option String → Bool
  | none => false
  | some s => !s.isEmpty

/-- SQL `LIKE '%pat%'` containment used by the name/nickname filters. -/
def likeContains (pat target : String) : Bool :=
  decide (pat.data <:+: target.data)

/-- A syntactic WHERE condition of the player query builder. -/
inductive Cond where
  | nameLike : String → Cond
  | nicknameLike : String → Cond
  | teamEq : Nat → Cond
deriving DecidableEq, Repr

/-- Evaluate one condition on a player row. -/
def evalCond : Cond → Player → Bool
  | .nameLike pat, p => likeContains pat p.name
  | .nicknameLike pat, p => likeContains pat p.nickname
  | .teamEq tid, p => p.teamId == tid

/-- A TypeORM select query builder over the player table: accumulated
AND-conditions plus optional OFFSET/LIMIT. -/
structure SelectQueryBuilder where
  conds : List Cond
  skipN : Option Nat
  takeN : Option Nat
deriving DecidableEq, Repr

/-- `andWhere`: append one more AND-condition. -/
def andWhere (qb : SelectQueryBuilder) (c : Cond) : SelectQueryBuilder :=
  { qb with conds := qb.conds ++ [c] }

/-- `getMany`: run the built query against the player table.  WHERE
filters first, then OFFSET (`skip`), then LIMIT (`take`). -/
def getMany (qb : SelectQueryBuilder) (players : List Player) : List Player :=
  let filtered := players.filter fun p => qb.conds.all fun c => evalCond c p
  let skipped := filtered.drop (qb.skipN.getD 0)
  match qb.takeN with
  | none => skipped
  | some t => skipped.take t

/-- A parsed CSV data row: the `name` and `description` columns
(`none` models a missing/null cell, which is what `_.isNil` detects),
plus any extra columns. -/
structure CsvRow where
  name : Option String
  description : Option String
  extra : List (String × String)
deriving DecidableEq, Repr

/-- `teamRepository.save(dtos)`: bulk-insert one team per dto, assigning
sequential ids from the store's counter. -/
def saveTeams (s : Store) (dtos : List (String × String)) : Store :=
  { s with
    teams := s.teams ++ dtos.enum.map fun pr =>
      ⟨s.nextTeamId + pr.1, pr.2.1, pr.2.2⟩
    nextTeamId := s.nextTeamId + dtos.length }

/-- `TeamService.create(file)`: reject non-`.csv` filenames, reject parse
failures, reject any row with a nil `name` or `description`, otherwise
bulk-insert one team per row from exactly its name/description cells.
Decoding and parsing are external (papaparse); their outcome is the
`parseResult` argument, an error when parsing threw. -/
def create (originalname : String) (parseResult : Except Unit (List CsvRow))
    (s : Store) : Except ServiceError Store :=
  if !(jsEndsWith originalname ".csv") then
    .error (.badRequest "CSV 파일만 업로드 가능합니다.")
  else
    match parseResult with
    | .error _ => .error (.badRequest "CSV 파싱에 실패했습니다.")
    | .ok teamsData =>
      if teamsData.any fun r => r.name.isNone || r.description.isNone then
        .error (.badRequest "CSV 파일은 name과 description 컬럼을 포함해야 합니다.")
      else
        .ok (saveTeams s (teamsData.map fun r => (r.name.getD "", r.description.getD "")))

/-- `verifyTeamById`: fetch-by-id, NotFound when absent. -/
def verifyTeamById (id : Nat) (s : Store) : Except ServiceError Team :=
  match s.teams.find? fun t => t.id == id with
  | none => .error (.notFound "존재하지 않는 팀입니다.")
  | some t => .ok t

/-- `findOne` (getTeam): delegates to `verifyTeamById`. -/
def findOne (id : Nat) (s : Store) : Except ServiceError Team :=
  verifyTeamById id s

/-- `findAll` (listTeams): all teams projected to id and name. -/
def findAll (s : Store) : List (Nat × String) :=
  s.teams.map fun t => (t.id, t.name)

/-- The partial update payload: only `some` fields are provided. -/
structure UpdateTeamDto where
  name : Option String
  description : Option String
deriving DecidableEq, Repr

/-- `teamRepository.update({id}, dto)` on one row: set exactly the
provided fields. -/
def applyPatch (dto : UpdateTeamDto) (t : Team) : Team :=
  { t with
    name := dto.name.getD t.name
    description := dto.description.getD t.description }

/-- `TeamService.update`: existence check, then patch every row matching
the id (ids are unique by store invariant). -/
def update (id : Nat) (dto : UpdateTeamDto) (s : Store) : Except ServiceError Store :=
  match verifyTeamById id s with
  | .error e => .error e
  | .ok _ =>
    .ok { s with teams := s.teams.map fun t => if t.id == id then applyPatch dto t else t }

/-- `TeamService.delete`: existence check, then remove the row. -/
def delete (id : Nat) (s : Store) : Except ServiceError Store :=
  match verifyTeamById id s with
  | .error e => .error e
  | .ok _ =>
    .ok { s with teams := s.teams.filter fun t => t.id != id }

/-- The pagination/filter query DTO; absent fields are `none`. -/
structure PaginationQueryDto where
  page : Option Nat
  page_size : Option Nat
  name : Option String
  nickname : Option String
deriving DecidableEq, Repr

/-- Outcome of a read operation that may touch the cache: the (untyped)
returned value, the cache afterwards, and whether the store was queried. -/
structure ServiceResult where
  result : CacheValue
  cache : Cache
  storeQueried : Bool
deriving DecidableEq, Repr

/-- `TeamService.findAllPlayers` (listPlayers): builds the filtered query
(the `skip`/`take` lines are commented out in the source, so `page` and
`page_size` are destructured but never applied); when both name and
nickname are truthy, reads cache-aside under the fixed key
`"searchAllPlayers"` with a 5-minute TTL; otherwise queries the store
directly. -/
def findAllPlayers (q : PaginationQueryDto) (s : Store) (c : Cache) : ServiceResult :=
  let qb : SelectQueryBuilder := ⟨[], none, none⟩
  let qb := if truthy q.name then andWhere qb (.nameLike (q.name.getD "")) else qb
  let qb := if truthy q.nickname then andWhere qb (.nicknameLike (q.nickname.getD "")) else qb
  if truthy q.name && truthy q.nickname then
    match cacheGet c "searchAllPlayers" with
    | some v => ⟨v, c, false⟩
    | none =>
      let ps := getMany qb s.players
      ⟨.players ps, cacheSet c "searchAllPlayers" (.players ps) (some (1000 * 60 * 5)), true⟩
  else
    ⟨.players (getMany qb s.players), c, true⟩

/-- `TeamService.findPlayersByTeamId` (listPlayersByTeam): team filter,
true pagination with skip `(page-1)*page_size` and take `page_size`
(defaults 1 and 10), optional name/nickname filters; the cache is never
touched and is returned unchanged. -/
def findPlayersByTeamId (teamId : Nat) (q : PaginationQueryDto) (s : Store)
    (c : Cache) : List Player × Cache :=
  let page := q.page.getD 1
  let page_size := q.page_size.getD 10
  let qb : SelectQueryBuilder := ⟨[.teamEq teamId], some ((page - 1) * page_size), some page_size⟩
  let qb := if truthy q.name then andWhere qb (.nameLike (q.name.getD "")) else qb
  let qb := if truthy q.nickname then andWhere qb (.nicknameLike (q.nickname.getD "")) else qb
  (getMany qb s.players, c)

/-- The stats aggregate: left-join teams to players and support messages,
group by team, count distinct player ids and distinct support-message ids
(a team with no matches keeps count 0, as COUNT over an empty left-join
group). Team ids are unique by store invariant, so one row per team. -/
def computeTeamStats (s : Store) : List TeamStat :=
  s.teams.map fun t =>
    { id := t.id
      name := t.name
      playerCount := ((s.players.filter fun p => p.teamId == t.id).map Player.id).dedup.length
      supportMessageCount :=
        ((s.supportMessages.filter fun m => m.teamId == t.id).map SupportMessage.id).dedup.length }

/-- `TeamService.getTeamStats`: cache-aside under the fixed key
`"teamStats"` with no TTL; on a miss, compute the aggregate, cache it
indefinitely and return it. -/
def getTeamStats (s : Store) (c : Cache) : ServiceResult :=
  match cacheGet c "teamStats" with
  | some v => ⟨v, c, false⟩
  | none =>
    let stats := computeTeamStats s
    ⟨.stats stats, cacheSet c "teamStats" (.stats stats) none, true⟩

/-- Specification-side predicate: conjunction of the team filter and the
optional name/nickname substring filters of listPlayersByTeam. -/
def playerMatches (teamId : Nat) (q : PaginationQueryDto) (p : Player) : Bool :=
  p.teamId == teamId
    && (if truthy q.name then likeContains (q.name.getD "") p.name else true)
    && (if truthy q.nickname then likeContains (q.nickname.getD "") p.nickname else true)

/-- An empty store, for concrete witnesses. -/
def st0 : Store := ⟨[], [], [], 1⟩

/-- A store with two teams, for update/delete witnesses. -/
def demoTeamsStore : Store := ⟨[⟨1, "A", "da"⟩, ⟨2, "B", "db"⟩], [], [], 3⟩

/-- A store with one team owning three players and two support messages,
for the statistics witness. -/
def demoStatsStore : Store :=
  ⟨[⟨1, "T", "d"⟩],
   [⟨1, "p1", "n1", 1⟩, ⟨2, "p2", "n2", 1⟩, ⟨3, "p3", "n3", 1⟩],
   [⟨1, 1⟩, ⟨2, 1⟩], 2⟩

/-- A query carrying both a name and a nickname filter. -/
def demoQuery : PaginationQueryDto := ⟨none, none, some "a", some "b"⟩

/-- `demoTeamsStore` after renaming team 1 to `"X"`. -/
def demoUpdatedStore : Store := ⟨[⟨1, "X", "da"⟩, ⟨2, "B", "db"⟩], [], [], 3⟩

/-- A cached player list entry, for cache-hit witnesses. -/
def demoCachedPlayers : CacheValue := .players [⟨7, "ab", "ab", 1⟩]

/-! ## Helper lemmas -/

/-- Two suffixes of the same list with equal lengths are equal. -/
theorem suffix_eq_of_length_eq {α : Type} {a b l : List α}
    (h₁ : a <:+ l) (h₂ : b <:+ l) (h : a.length = b.length) : a = b := by
  obtain ⟨t₁, ht₁⟩ := h₁
  obtain ⟨t₂, ht₂⟩ := h₂
  exact (List.append_inj' (ht₁.trans ht₂.symm) h).2

/-- A string ending in `".CSV"` does not end in `".csv"`. -/
theorem jsEndsWith_CSV_not_csv (s : String) (h : jsEndsWith s ".CSV" = true) :
    jsEndsWith s ".csv" = false := by
  unfold jsEndsWith at h ⊢
  rw [List.isSuffixOf_iff_suffix] at h
  by_contra hc
  rw [Bool.not_eq_false, List.isSuffixOf_iff_suffix] at hc
  have heq := suffix_eq_of_length_eq h hc (by decide)
  exact absurd heq (by decide)

/-! ## Claim theorems -/

/-- C8: for every upload whose filename does not end in `".csv"`,
`create` fails with BadInput regardless of the decoding/parsing outcome
(so before any parsing matters) and no teams are created. -/
theorem create_rejects_non_csv_extension (fname : String)
    (parseResult : Except Unit (List CsvRow)) (s : Store)
    (h : jsEndsWith fname ".csv" = false) :
    create fname parseResult s = .error (.badRequest "CSV 파일만 업로드 가능합니다.") := by
  simp [create, h]

theorem create_rejects_non_csv_extension_witness :
    jsEndsWith "teams.txt" ".csv" = false ∧
    create "teams.txt" (.ok []) st0 = .error (.badRequest "CSV 파일만 업로드 가능합니다.") :=
  ⟨by decide, create_rejects_non_csv_extension "teams.txt" (.ok []) st0 (by decide)⟩

/-- C9: the extension check is case-sensitive: a filename ending in
`".CSV"` is rejected with BadInput, for every content and store. -/
theorem create_extension_check_case_sensitive (fname : String)
    (parseResult : Except Unit (List CsvRow)) (s : Store)
    (h : jsEndsWith fname ".CSV" = true) :
    create fname parseResult s = .error (.badRequest "CSV 파일만 업로드 가능합니다.") := by
  simp [create, jsEndsWith_CSV_not_csv fname h]

theorem create_extension_check_case_sensitive_witness :
    jsEndsWith "teams.CSV" ".CSV" = true ∧
    create "teams.CSV" (.ok [⟨some "A", some "d", []⟩]) st0
      = .error (.badRequest "CSV 파일만 업로드 가능합니다.") :=
  ⟨by decide,
   create_extension_check_case_sensitive "teams.CSV" (.ok [⟨some "A", some "d", []⟩]) st0
     (by decide)⟩

/-- C10: row validation only rejects nil cells: a row whose `name` and
`description` are empty strings passes validation and a team with
empty-string fields is created (no BadInput). -/
theorem create_accepts_empty_string_fields (s : Store) (extra : List (String × String)) :
    create "teams.csv" (.ok [⟨some "", some "", extra⟩]) s
      = .ok { s with teams := s.teams ++ [⟨s.nextTeamId, "", ""⟩],
                     nextTeamId := s.nextTeamId + 1 } := by
  have h1 : jsEndsWith "teams.csv" ".csv" = true := by decide
  simp [create, h1, saveTeams]

/-- Bulk insert grows the team table by one row per dto. -/
theorem saveTeams_teams_length (s : Store) (dtos : List (String × String)) :
    (saveTeams s dtos).teams.length = s.teams.length + dtos.length := by
  simp [saveTeams]

/-- The inserted rows carry exactly the dto name/description pairs. -/
theorem saveTeams_teams_map (s : Store) (dtos : List (String × String)) :
    (saveTeams s dtos).teams.map (fun t => (t.name, t.description))
      = s.teams.map (fun t => (t.name, t.description)) ++ dtos := by
  simp only [saveTeams, List.map_append, List.map_map]
  congr 1
  have hcomp : ((fun t : Team => (t.name, t.description)) ∘
      fun pr : Nat × (String × String) => (⟨s.nextTeamId + pr.1, pr.2.1, pr.2.2⟩ : Team))
      = Prod.snd := by
    funext pr
    simp [Function.comp]
  rw [hcomp, List.enum_eq_enumFrom, List.enumFrom_map_snd]

/-- Row validation reads only the name/description cells. -/
theorem csv_any_factors (rows : List CsvRow) :
    rows.any (fun r => r.name.isNone || r.description.isNone)
      = (rows.map fun r => (r.name, r.description)).any
          (fun pr => pr.1.isNone || pr.2.isNone) := by
  induction rows with
  | nil => rfl
  | cons r rs ih =>
    simp only [List.map_cons, List.any_cons, ih]

/-- The inserted dtos read only the name/description cells. -/
theorem csv_dtos_factor (rows : List CsvRow) :
    rows.map (fun r => (r.name.getD "", r.description.getD ""))
      = (rows.map fun r => (r.name, r.description)).map
          (fun pr => (pr.1.getD "", pr.2.getD "")) := by
  induction rows with
  | nil => rfl
  | cons r rs ih =>
    simp only [List.map_cons, ih]

/-- C1: CSV validation is all-or-nothing.  For every parsed batch: a row
with a nil name or description makes the whole call fail with BadInput and
no store insert happens; when every row has both cells, exactly one team
per row is inserted with exactly those name/description values; and the
outcome depends only on the name/description cells, so extra columns are
ignored. -/
theorem create_validation_all_or_nothing (fname : String) (rows : List CsvRow) (s : Store)
    (hcsv : jsEndsWith fname ".csv" = true) :
    ((∃ r ∈ rows, r.name = none ∨ r.description = none) →
      create fname (.ok rows) s
        = .error (.badRequest "CSV 파일은 name과 description 컬럼을 포함해야 합니다.")) ∧
    ((∀ r ∈ rows, r.name ≠ none ∧ r.description ≠ none) →
      ∃ s', create fname (.ok rows) s = .ok s' ∧
        s'.teams.map (fun t => (t.name, t.description))
          = s.teams.map (fun t => (t.name, t.description))
            ++ rows.map (fun r => (r.name.getD "", r.description.getD "")) ∧
        s'.teams.length = s.teams.length + rows.length ∧
        s'.players = s.players ∧ s'.supportMessages = s.supportMessages) ∧
    (∀ rows₂ : List CsvRow,
      rows.map (fun r => (r.name, r.description))
        = rows₂.map (fun r => (r.name, r.description)) →
      create fname (.ok rows) s = create fname (.ok rows₂) s) := by
  refine ⟨?_, ?_, ?_⟩
  · rintro ⟨r, hr, hbad⟩
    have hany : rows.any (fun r => r.name.isNone || r.description.isNone) = true := by
      rw [List.any_eq_true]
      exact ⟨r, hr, by rcases hbad with h | h <;> simp [h]⟩
    simp [create, hcsv, hany]
  · intro hall
    have hany : rows.any (fun r => r.name.isNone || r.description.isNone) = false := by
      rw [List.any_eq_false]
      intro r hr
      obtain ⟨h1, h2⟩ := hall r hr
      simp [Option.isNone_iff_eq_none, h1, h2]
    refine ⟨saveTeams s (rows.map fun r => (r.name.getD "", r.description.getD "")),
      ?_, ?_, ?_, ?_, ?_⟩
    · simp [create, hcsv, hany]
    · rw [saveTeams_teams_map]
    · rw [saveTeams_teams_length, List.length_map]
    · simp [saveTeams]
    · simp [saveTeams]
  · intro rows₂ hproj
    simp only [create, hcsv, Bool.not_true, Bool.false_eq_true, if_false,
      csv_any_factors, csv_dtos_factor, hproj]

theorem create_validation_all_or_nothing_witness :
    create "teams.csv" (.ok [⟨some "A", some "d1", []⟩, ⟨some "B", none, []⟩]) st0
      = .error (.badRequest "CSV 파일은 name과 description 컬럼을 포함해야 합니다.") ∧
    ∃ s', create "teams.csv"
        (.ok [⟨some "A", some "d1", [("x", "1")]⟩, ⟨some "B", some "d2", []⟩]) st0
      = .ok s' ∧ s'.teams.map (fun t => (t.name, t.description)) = [("A", "d1"), ("B", "d2")] := by
  constructor
  · exact (create_validation_all_or_nothing "teams.csv"
      [⟨some "A", some "d1", []⟩, ⟨some "B", none, []⟩] st0 (by decide)).1 (by decide)
  · obtain ⟨s', hs', hmap, -⟩ := (create_validation_all_or_nothing "teams.csv"
      [⟨some "A", some "d1", [("x", "1")]⟩, ⟨some "B", some "d2", []⟩] st0 (by decide)).2.1
      (by decide)
    exact ⟨s', hs', by simpa [st0] using hmap⟩

/-- Running a builder with two conditions and no skip/take filters by
their conjunction. -/
theorem getMany_two_conds (c₁ c₂ : Cond) (players : List Player) :
    getMany ⟨[c₁, c₂], none, none⟩ players
      = players.filter fun p => evalCond c₁ p && evalCond c₂ p := by
  simp [getMany]

/-- C2: pagination is inert on listPlayers: two calls differing only in
`page` and `page_size` return identical results, on every store, cache
and name/nickname filter pair (hence in every branch). -/
theorem findAllPlayers_pagination_inert (s : Store) (c : Cache) (q : PaginationQueryDto)
    (p₁ p₂ ps₁ ps₂ : Option Nat) :
    findAllPlayers ⟨p₁, ps₁, q.name, q.nickname⟩ s c
      = findAllPlayers ⟨p₂, ps₂, q.name, q.nickname⟩ s c := rfl

/-- C3: with both filters truthy, listPlayers is cache-aside under the
single fixed key `"searchAllPlayers"` (whatever the filter values): a hit
returns the cached value with no store query and no cache write; a miss
queries the store once and writes the filtered result under that key with
a `1000*60*5` ms TTL. -/
theorem findAllPlayers_cache_aside (q : PaginationQueryDto) (s : Store) (c : Cache)
    (hn : truthy q.name = true) (hk : truthy q.nickname = true) :
    (∀ v, cacheGet c "searchAllPlayers" = some v →
      findAllPlayers q s c = ⟨v, c, false⟩) ∧
    (cacheGet c "searchAllPlayers" = none →
      findAllPlayers q s c
        = ⟨.players (s.players.filter fun p =>
              likeContains (q.name.getD "") p.name
                && likeContains (q.nickname.getD "") p.nickname),
           cacheSet c "searchAllPlayers"
             (.players (s.players.filter fun p =>
               likeContains (q.name.getD "") p.name
                 && likeContains (q.nickname.getD "") p.nickname))
             (some (1000 * 60 * 5)), true⟩) := by
  constructor
  · intro v hv
    simp [findAllPlayers, hn, hk, hv]
  · intro hm
    simp [findAllPlayers, hn, hk, hm, andWhere, getMany_two_conds, evalCond]

theorem findAllPlayers_cache_aside_witness :
    findAllPlayers demoQuery st0 []
      = ⟨.players [], cacheSet [] "searchAllPlayers" (.players []) (some (1000 * 60 * 5)), true⟩ ∧
    findAllPlayers demoQuery st0 (cacheSet [] "searchAllPlayers" demoCachedPlayers (some (1000 * 60 * 5)))
      = ⟨demoCachedPlayers,
         cacheSet [] "searchAllPlayers" demoCachedPlayers (some (1000 * 60 * 5)), false⟩ := by
  constructor
  · exact (findAllPlayers_cache_aside demoQuery st0 [] (by decide) (by decide)).2 rfl
  · exact (findAllPlayers_cache_aside demoQuery st0 _ (by decide) (by decide)).1
      demoCachedPlayers rfl

/-- C4: listPlayersByTeam filters to the team id conjoined with the
optional substring filters, then paginates with skip `(page-1)*page_size`
and take `page_size` (defaults 1 and 10), leaving the cache untouched; so
it returns at most `page_size` players, all matching. -/
theorem findPlayersByTeamId_paginates (teamId : Nat) (q : PaginationQueryDto)
    (s : Store) (c : Cache) :
    findPlayersByTeamId teamId q s c
      = (((s.players.filter fun p => playerMatches teamId q p).drop
            ((q.page.getD 1 - 1) * q.page_size.getD 10)).take (q.page_size.getD 10), c) ∧
    (findPlayersByTeamId teamId q s c).1.length ≤ q.page_size.getD 10 ∧
    ∀ p ∈ (findPlayersByTeamId teamId q s c).1, playerMatches teamId q p = true := by
  have hmain : findPlayersByTeamId teamId q s c
      = (((s.players.filter fun p => playerMatches teamId q p).drop
            ((q.page.getD 1 - 1) * q.page_size.getD 10)).take (q.page_size.getD 10), c) := by
    cases hn : truthy q.name <;> cases hk : truthy q.nickname <;>
      simp [findPlayersByTeamId, andWhere, getMany, playerMatches, evalCond, hn, hk,
        Bool.and_assoc, Bool.and_true]
  refine ⟨hmain, ?_, ?_⟩
  · rw [hmain]
    exact List.length_take_le _ _
  · rw [hmain]
    intro p hp
    exact List.of_mem_filter (List.mem_of_mem_drop (List.mem_of_mem_take hp))

/-- C5: getTeamStats is cache-aside under the fixed key `"teamStats"`
with no TTL: a hit skips the store and leaves the cache unchanged; a miss
computes per team its id, name, distinct player count and distinct
support-message count, caches that indefinitely, and returns it. -/
theorem getTeamStats_cache_aside (s : Store) (c : Cache) :
    (∀ v, cacheGet c "teamStats" = some v → getTeamStats s c = ⟨v, c, false⟩) ∧
    (cacheGet c "teamStats" = none →
      getTeamStats s c
        = ⟨.stats (computeTeamStats s),
           cacheSet c "teamStats" (.stats (computeTeamStats s)) none, true⟩ ∧
      computeTeamStats s = s.teams.map fun t =>
        ⟨t.id, t.name,
         ((s.players.filter fun p => p.teamId == t.id).map Player.id).dedup.length,
         ((s.supportMessages.filter fun m => m.teamId == t.id).map
           SupportMessage.id).dedup.length⟩) := by
  constructor
  · intro v hv
    simp [getTeamStats, hv]
  · intro hm
    exact ⟨by simp [getTeamStats, hm], rfl⟩

theorem getTeamStats_cache_aside_witness :
    getTeamStats demoStatsStore []
      = ⟨.stats [⟨1, "T", 3, 2⟩],
         cacheSet [] "teamStats" (.stats [⟨1, "T", 3, 2⟩]) none, true⟩ :=
  ((getTeamStats_cache_aside demoStatsStore []).2 rfl).1

/-- C6: update on an existing id patches exactly the provided fields of
the matching team: every absent field keeps its value, every team with a
different id is unchanged, and the other tables are untouched. -/
theorem update_patches_only_provided_fields (id : Nat) (dto : UpdateTeamDto)
    (s s' : Store) (h : update id dto s = .ok s') :
    s'.players = s.players ∧ s'.supportMessages = s.supportMessages ∧
    s'.nextTeamId = s.nextTeamId ∧
    s'.teams.length = s.teams.length ∧
    ∀ i : Fin s.teams.length, ∀ hi : i.val < s'.teams.length,
      ((s.teams.get i).id ≠ id → s'.teams.get ⟨i.val, hi⟩ = s.teams.get i) ∧
      (s'.teams.get ⟨i.val, hi⟩).id = (s.teams.get i).id ∧
      (dto.name = none → (s'.teams.get ⟨i.val, hi⟩).name = (s.teams.get i).name) ∧
      (dto.description = none →
        (s'.teams.get ⟨i.val, hi⟩).description = (s.teams.get i).description) ∧
      ((s.teams.get i).id = id →
        s'.teams.get ⟨i.val, hi⟩ = applyPatch dto (s.teams.get i)) := by
  obtain ⟨t₀, hv⟩ : ∃ t, verifyTeamById id s = .ok t := by
    cases hvv : verifyTeamById id s with
    | error e => simp [update, hvv] at h
    | ok t => exact ⟨t, rfl⟩
  have hs' : s' = { s with
      teams := s.teams.map fun t => if t.id = id then applyPatch dto t else t } := by
    simp [update, hv] at h
    exact h.symm
  subst hs'
  refine ⟨rfl, rfl, rfl, by simp, ?_⟩
  intro i hi
  have hget : ({ s with
        teams := s.teams.map fun t => if t.id = id then applyPatch dto t else t }
        : Store).teams.get ⟨i.val, hi⟩
      = if (s.teams.get i).id = id then applyPatch dto (s.teams.get i)
        else s.teams.get i := by
    simp [List.get_eq_getElem, List.getElem_map]
  rw [hget]
  by_cases hid : (s.teams.get i).id = id
  · rw [if_pos hid]
    refine ⟨fun hne => absurd hid hne, rfl, ?_, ?_, fun _ => rfl⟩
    · intro hn
      simp [applyPatch, hn]
    · intro hd
      simp [applyPatch, hd]
  · rw [if_neg hid]
    exact ⟨fun _ => rfl, rfl, fun _ => rfl, fun _ => rfl, fun habs => absurd habs hid⟩

theorem update_patches_only_provided_fields_witness :
    update 1 ⟨some "X", none⟩ demoTeamsStore = .ok demoUpdatedStore ∧
    demoUpdatedStore.teams.length = demoTeamsStore.teams.length :=
  ⟨rfl, (update_patches_only_provided_fields 1 ⟨some "X", none⟩ demoTeamsStore
    demoUpdatedStore rfl).2.2.2.1⟩

/-- C7: for an id absent from the store, getTeam, updateTeam and
deleteTeam all fail with NotFound via the shared existence check; the
error result carries no store, so the update/delete is never issued. -/
theorem operations_not_found (id : Nat) (dto : UpdateTeamDto) (s : Store)
    (h : ∀ t ∈ s.teams, t.id ≠ id) :
    findOne id s = .error (.notFound "존재하지 않는 팀입니다.") ∧
    update id dto s = .error (.notFound "존재하지 않는 팀입니다.") ∧
    delete id s = .error (.notFound "존재하지 않는 팀입니다.") := by
  have hfind : s.teams.find? (fun t => t.id == id) = none := by
    rw [List.find?_eq_none]
    intro t ht
    simpa using h t ht
  simp [findOne, update, delete, verifyTeamById, hfind]

theorem operations_not_found_witness :
    findOne 99 demoTeamsStore = .error (.notFound "존재하지 않는 팀입니다.") ∧
    update 99 ⟨some "X", none⟩ demoTeamsStore = .error (.notFound "존재하지 않는 팀입니다.") ∧
    delete 99 demoTeamsStore = .error (.notFound "존재하지 않는 팀입니다.") :=
  operations_not_found 99 ⟨some "X", none⟩ demoTeamsStore (by decide)

end SpartaTeams
